import Mathlib

/-!
Verification of the upload pipeline of nodebb-plugin-aws-s3-upload
(src/library.js).

JavaScript strings are modelled as lists of characters (`JSString`); absent
or empty string-valued fields are modelled by the empty list, matching the
truthiness tests the source performs (`if (!image.path)` and similar).
Byte sizes and the configured size limit are natural numbers
(`parseInt(meta.config.maximumFileSize, 10)` on a configured value).
Fallible operations return `Except`; the IO the source performs (logging,
file reads, HTTP requests, S3 puts, and the extension-check invocations)
is recorded as an explicit trace of `Effect`s returned next to the result.
-/

abbrev JSString := List Char

/-- The hook tag compared by `reloadSettings` (library.js line 62). -/
def pluginTag : JSString := "aws-s3-upload".toList

/-- Value of `constants.pluginId` (library.js line 24) followed by the separator used
by `createError` (line 257): the string prepended to wrapped storage-error
messages. -/
def pluginIdSep : JSString := "nodebb-plugin-aws-s3-upload :: ".toList

/-! ## Node path.extname

`plugin.isExtensionAllowed` and the key builder both call `path.extname`.
The model follows the algorithm of the Node `path.posix.extname`
implementation: trailing '/' characters are ignored, the basename is the
part after the last remaining '/', and the extension is the basename from
its last '.' to the end - except that there is no extension when the
basename has no dot, when its only dot is its leading character (a
dotfile such as ".bashrc"), or when the basename is exactly "..". -/

/-- The trimmed final path component scanned by `path.extname`: drop
trailing '/' characters, then keep what follows the last '/'. -/
def basename (s : JSString) : JSString :=
  ((s.reverse.dropWhile (fun c => c = '/')).takeWhile (fun c => c ≠ '/')).reverse

/-- Index of the last '.' in a component, if any. -/
def lastDotIndex (b : JSString) : Option Nat :=
  match b.reverse.findIdx? (fun c => c = '.') with
  | none => none
  | some j => some (b.length - 1 - j)

/-- Model of `path.extname` (posix). -/
def extname (s : JSString) : JSString :=
  if basename s = ['.', '.'] then []
  else
    match lastDotIndex (basename s) with
    | none => []
    | some d => if d = 0 then [] else (basename s).drop d

/-- The lower-cased extension computed on library.js line 266. -/
def lowerExtension (filePath : JSString) : JSString :=
  (extname filePath).map Char.toLower

/-- Model of `plugin.isExtensionAllowed` (library.js lines 265-271):

    const extension = path.extname(filePath).toLowerCase();
    return !(allowed.length > 0 &&
      (!extension || extension === '.' || !allowed.includes(extension)));
-/
def isExtensionAllowed (filePath : JSString) (allowed : List JSString) : Bool :=
  let extension := lowerExtension filePath
  !(decide (allowed ≠ []) &&
    (decide (extension = []) || decide (extension = ['.']) ||
      !decide (extension ∈ allowed)))

example : extname "photo.png".toList = ".png".toList := by decide
example : extname "archive.tar.gz".toList = ".gz".toList := by decide
example : extname "noext".toList = [] := by decide
example : extname "trailing.".toList = ['.'] := by decide
example : extname ".bashrc".toList = [] := by decide
example : extname "..".toList = [] := by decide
example : extname "dir.d/noext".toList = [] := by decide
example : extname "a/b.txt//".toList = ".txt".toList := by decide
example : isExtensionAllowed "photo.PNG".toList [".png".toList] = true := by decide
example : isExtensionAllowed "photo.png".toList [] = true := by decide
example : isExtensionAllowed "noext".toList [".png".toList] = false := by decide
example : isExtensionAllowed "bare.".toList [".".toList] = false := by decide

/-! ## Key builder (library.js lines 164-189)

`uploadToS3` derives the storage key from `plugin.settings.uploadPath`, the
optional folder, a freshly generated `uuid()` (a parameter `token` here) and
`path.extname(filename)`. -/

/-- Lines 165-175: ensure a trailing '/', defaulting to "/" when no upload
path is configured. -/
def s3PathOf (uploadPath : JSString) : JSString :=
  if uploadPath ≠ [] then
    if uploadPath.getLast? = some '/' then uploadPath else uploadPath ++ ['/']
  else ['/']

/-- Line 177: `s3Path.replace(/^\//, '')` strips one leading '/' (the regex
matches at most one). -/
def strippedPathOf (uploadPath : JSString) : JSString :=
  let p := s3PathOf uploadPath
  if p.head? = some '/' then p.tail else p

/-- Lines 177-181: the stripped path, then a non-empty folder appended with
a trailing '/'. -/
def s3KeyPath (uploadPath folder : JSString) : JSString :=
  if folder ≠ [] then strippedPathOf uploadPath ++ folder ++ ['/']
  else strippedPathOf uploadPath

/-- Line 185: `Key: s3KeyPath + uuid() + path.extname(filename)`. -/
def s3Key (uploadPath folder token filename : JSString) : JSString :=
  s3KeyPath uploadPath folder ++ token ++ extname filename

example : s3Key "".toList "".toList "u1".toList "a.png".toList = "u1.png".toList := by decide
example : s3Key "files".toList "f".toList "u1".toList "a.png".toList
    = "files/f/u1.png".toList := by decide
example : s3Key "/files/".toList "".toList "u1".toList "a".toList
    = "files/u1".toList := by decide

/-! ## Settings store (library.js lines 27-36 and 61-86) -/

/-- State `plugin.settings`: the six string-valued fields. -/
structure Settings where
  accessKeyId : JSString
  secretAccessKey : JSString
  region : JSString
  bucket : JSString
  uploadPath : JSString
  host : JSString
deriving DecidableEq, Repr

/-- The hook payload passed to `reloadSettings`; the live hook always
carries a `plugin` tag. -/
structure HookData where
  plugin : JSString
deriving DecidableEq, Repr

/-- What `meta.settings.get("aws-s3-upload")` returns: each field may be
absent, and may be empty when present. -/
structure IncomingSettings where
  accessKeyId : Option JSString
  secretAccessKey : Option JSString
  region : Option JSString
  bucket : Option JSString
  uploadPath : Option JSString
  host : Option JSString
deriving DecidableEq, Repr

/-- One field update of `reloadSettings`: the stored value is replaced only
when the incoming value is present and non-empty
(`if (settings.field && settings.field.length)`). -/
def applyField (cur : JSString) (inc : Option JSString) : JSString :=
  match inc with
  | some v => if v ≠ [] then v else cur
  | none => cur

/-- Model of `plugin.reloadSettings` (lines 61-86). `data` models the hook argument;
`incoming` models the store snapshot fetched from `meta.settings.get`. -/
def reloadSettings (cur : Settings) (data : Option HookData)
    (incoming : IncomingSettings) : Settings :=
  match data with
  | some d =>
    if d.plugin ≠ pluginTag then cur
    else
      { accessKeyId := applyField cur.accessKeyId incoming.accessKeyId
        secretAccessKey := applyField cur.secretAccessKey incoming.secretAccessKey
        region := applyField cur.region incoming.region
        bucket := applyField cur.bucket incoming.bucket
        uploadPath := applyField cur.uploadPath incoming.uploadPath
        host := applyField cur.host incoming.host }
  | none =>
      { accessKeyId := applyField cur.accessKeyId incoming.accessKeyId
        secretAccessKey := applyField cur.secretAccessKey incoming.secretAccessKey
        region := applyField cur.region incoming.region
        bucket := applyField cur.bucket incoming.bucket
        uploadPath := applyField cur.uploadPath incoming.uploadPath
        host := applyField cur.host incoming.host }

/-! ## Errors, effects and the environment -/

/-- The values thrown by library.js, by site. `refError id` stands for the
`ReferenceError: <id> is not defined` raised in strict mode when an unbound
identifier is evaluated or assigned ("use strict" is line 1 of the module;
its module scope binds only S3, uuid, fs, path, promisify, sharp, winston,
nconf, meta, routeHelpers, fileModule, readFile, constants and plugin,
lines 3-36). `storageWrapped` is the error thrown on line 209,
`new Error(plugin.createError(err))`: it records the name of the wrapped
error and the original cause message. -/
inductive JsError where
  | invalidFile
  | invalidFilePath
  | invalidImagePath
  | fileTooBig (maxKB : Nat)
  | invalidFileType (allowed : List JSString)
  | refError (id : JSString)
  | storageWrapped (causeName causeMessage : JSString)
  | fetchFailed (status : Nat)
deriving DecidableEq, Repr

/-- String form of an Error, per `Error.prototype.toString()`: name, ": ",
message, with the degenerate
empty cases of the ECMAScript algorithm. -/
def errToString (name message : JSString) : JSString :=
  if name = [] then message
  else if message = [] then name
  else name ++ ": ".toList ++ message

/-- The `message` property of each thrown value. -/
def messageOf : JsError → JSString
  | .invalidFile => "invalid file".toList
  | .invalidFilePath => "invalid file path".toList
  | .invalidImagePath => "Invalid image path".toList
  | .fileTooBig m => "[[error:file-too-big, ".toList ++ (Nat.repr m).toList ++ "]]".toList
  | .invalidFileType allowed =>
      "[[error:invalid-file-type, ".toList
        ++ List.intercalate "&#44; ".toList allowed ++ "]]".toList
  | .refError id => id ++ " is not defined".toList
  | .storageWrapped causeName causeMessage =>
      errToString causeName (pluginIdSep ++ causeMessage)
  | .fetchFailed s => "Failed to fetch image. Status: ".toList ++ (Nat.repr s).toList

/-- Observable steps an upload call performs, in order: `winston.error`
logging, `plugin.isExtensionAllowed` invocations, `fs.readFile`, the
`https.get` request (never actually reached), and the S3
`PutObjectCommand` send. -/
inductive Effect where
  | logError (message : JSString)
  | extCheck (arg : JSString)
  | readFile (path : JSString)
  | httpGet (url : JSString)
  | s3Put (bucket key body : JSString)
deriving DecidableEq, Repr

/-- A failure of `s3Client.send`: whether the thrown value is an `Error`
instance (`createError`, lines 255-263, branches on this), its `name`
when it is one, and its message (or string form). -/
structure S3Cause where
  isError : Bool
  name : JSString
  message : JSString
deriving DecidableEq, Repr

/-- The environment an upload call reads: the live size limit
(`parseInt(meta.config.maximumFileSize, 10)`), the allow-list
(`fileModule.allowedExtensions()`), the current `plugin.settings`, the
file-system contents, the `uuid()` drawn by this call, and the outcome of
the S3 send (`none` means the put succeeds). -/
structure Env where
  maximumFileSize : Nat
  allowed : List JSString
  settings : Settings
  readFile : JSString → JSString
  token : JSString
  s3SendFails : Option S3Cause

/-- Result object returned by a successful upload: name and url. -/
structure UploadResult where
  name : JSString
  url : JSString
deriving DecidableEq, Repr

/-! ## Storage client and orchestrators (library.js lines 88-243) -/

/-- Model of `plugin.uploadToS3` (lines 164-211). The PUT parameters are the bucket,
the derived key and the buffer (`ContentLength` and the mime-derived
`ContentType` carry no information the claims mention). On a send failure
`createError` rewrites the cause message to `pluginId :: <message>` (or
builds a fresh Error with that message when the thrown value is not an
Error), logs it, and line 209 throws `new Error(...)` applied to that
Error object, so the thrown error's message is its string form. On success
the public URL host is the configured override - prefixed with "http://"
unless it starts with "http" - or `https://<bucket>` by default. -/
def uploadToS3 (env : Env) (filename folder buffer : JSString) :
    List Effect × Except JsError UploadResult :=
  let key := s3Key env.settings.uploadPath folder env.token filename
  match env.s3SendFails with
  | some cause =>
    let wrappedMessage := pluginIdSep ++ cause.message
    let wrappedName := if cause.isError then cause.name else "Error".toList
    ([.s3Put env.settings.bucket key buffer, .logError wrappedMessage],
      .error (.storageWrapped wrappedName cause.message))
  | none =>
    let host :=
      if env.settings.host ≠ [] then
        if "http".toList.isPrefixOf env.settings.host then env.settings.host
        else "http://".toList ++ env.settings.host
      else "https://".toList ++ env.settings.bucket
    ([.s3Put env.settings.bucket key buffer],
      .ok ⟨filename, host ++ ['/'] ++ key⟩)

/-- The `file` argument of `uploadFile`; a missing or empty `path` is `[]`. -/
structure FileInput where
  size : Nat
  path : JSString
  name : JSString
deriving DecidableEq, Repr

/-- The log line `error:file-too-big, <max>` written before the size error
is thrown (lines 98 and 151). -/
def fileTooBigLog (maxKB : Nat) : JSString :=
  "error:file-too-big, ".toList ++ (Nat.repr maxKB).toList

/-- Model of `plugin.uploadFile` (lines 138-162): missing file, missing path, size
check, extension check on `file.path`, then read and upload. -/
def uploadFile (env : Env) (file : Option FileInput) (folder : JSString) :
    List Effect × Except JsError UploadResult :=
  match file with
  | none => ([], .error .invalidFile)
  | some file =>
    if file.path = [] then ([], .error .invalidFilePath)
    else if file.size > env.maximumFileSize * 1024 then
      ([.logError (fileTooBigLog env.maximumFileSize)],
        .error (.fileTooBig env.maximumFileSize))
    else if !isExtensionAllowed file.path env.allowed then
      ([.extCheck file.path], .error (.invalidFileType env.allowed))
    else
      let r := uploadToS3 env file.name folder (env.readFile file.path)
      (.extCheck file.path :: .readFile file.path :: r.1, r.2)

/-- The `image` argument of `uploadImage`. `url`, `path` and `originalname`
are `[]` when absent or empty (the source only ever tests their
truthiness). -/
structure ImageInput where
  size : Nat
  url : JSString
  path : JSString
  name : JSString
  originalname : JSString
deriving DecidableEq, Repr

/-- Model of `plugin.uploadImage` (lines 88-136).

Three of its paths evaluate identifiers with no binding anywhere in the
module, which under "use strict" throw a ReferenceError:
* line 93, `return callback(new Error("invalid image"))` - `callback` is
  unbound (the error is logged on line 92 first);
* line 118, `name = image.path` - the declared local is `nameToCheck`
  (line 113); assigning the undeclared `name` throws before the extension
  check on line 120 runs;
* line 132, `plugin.downloadAndResizeImage(image.url, imageDimension)` -
  the argument `imageDimension` is unbound, so the URL branch throws after
  its extension check and before any request (`filename` on line 134 is
  likewise unbound and would throw next). -/
def uploadImage (env : Env) (image : Option ImageInput) (folder : JSString) :
    List Effect × Except JsError UploadResult :=
  match image with
  | none =>
    ([.logError "invalid image".toList], .error (.refError "callback".toList))
  | some image =>
    if image.size > env.maximumFileSize * 1024 then
      ([.logError (fileTooBigLog env.maximumFileSize)],
        .error (.fileTooBig env.maximumFileSize))
    else if image.url = [] then
      if image.path = [] then ([], .error .invalidImagePath)
      else if image.originalname ≠ [] then
        if !isExtensionAllowed image.originalname env.allowed then
          ([.extCheck image.originalname], .error (.invalidFileType env.allowed))
        else
          let r := uploadToS3 env image.name folder (env.readFile image.path)
          (.extCheck image.originalname :: .readFile image.path :: r.1, r.2)
      else
        ([], .error (.refError "name".toList))
    else
      if !isExtensionAllowed image.url env.allowed then
        ([.extCheck image.url], .error (.invalidFileType env.allowed))
      else
        ([.extCheck image.url], .error (.refError "imageDimension".toList))

/-- Model of `plugin.downloadAndResizeImage` (lines 213-243). The first step of the
Promise executor evaluates `https.get(url, ...)` (line 215), but the module
never requires "https"; the unbound identifier throws
`ReferenceError: https is not defined` and the promise rejects before any
GET request is issued. The status check, body accumulation, file-type
sniffing and sharp resize below it are unreachable. -/
def downloadAndResizeImage (_env : Env) (_url : JSString) (_dimension : Nat) :
    List Effect × Except JsError JSString :=
  ([], .error (.refError "https".toList))

/-! ## Sample environment used by concrete evaluations -/

def sampleSettings : Settings :=
  { accessKeyId := "AK".toList
    secretAccessKey := "SK".toList
    region := "eu-west-1".toList
    bucket := "bkt".toList
    uploadPath := "files/".toList
    host := [] }

def sampleEnv : Env :=
  { maximumFileSize := 1
    allowed := []
    settings := sampleSettings
    readFile := fun _ => "bytes".toList
    token := "u1".toList
    s3SendFails := none }

example : (uploadFile sampleEnv (some ⟨10, "a.png".toList, "a.png".toList⟩) []).2
    = .ok ⟨"a.png".toList, "https://bkt/files/u1.png".toList⟩ := by rfl
example : (uploadFile sampleEnv (some ⟨2000, "a.png".toList, "a.png".toList⟩) []).2
    = .error (.fileTooBig 1) := by rfl

/-! ## Helper lemmas -/

theorem head?_append_or (a b : List Char) : (a ++ b).head? = a.head?.or b.head? := by
  cases a <;> rfl

theorem head?_mem {l : List Char} {a : Char} (h : l.head? = some a) : a ∈ l := by
  cases l with
  | nil => cases h
  | cons x xs =>
    simp only [List.head?_cons, Option.some.injEq] at h
    exact h ▸ List.mem_cons_self x xs

theorem getLast?_mem {l : List Char} {a : Char} (h : l.getLast? = some a) : a ∈ l := by
  induction l with
  | nil => cases h
  | cons x xs ih =>
    cases xs with
    | nil =>
      simp only [List.getLast?_singleton, Option.some.injEq] at h
      exact h ▸ List.mem_cons_self _ _
    | cons y ys =>
      rw [List.getLast?_cons_cons] at h
      exact List.mem_cons_of_mem x (ih h)

theorem not_prefix_of_head_ne {p l : List Char} (hp : p ≠ [])
    (h : p.head? ≠ l.head?) : ¬ p <+: l := by
  rintro ⟨t, rfl⟩
  cases p with
  | nil => exact hp rfl
  | cons a p' => exact h (by simp)

/-- The result `(uploadToS3 ...).2` is a success or a wrapped storage error; it is
never the size error. -/
theorem uploadToS3_snd_not_fileTooBig (env : Env) (fn folder buf : JSString)
    (m : Nat) : (uploadToS3 env fn folder buf).2 ≠ .error (.fileTooBig m) := by
  unfold uploadToS3
  cases hc : env.s3SendFails <;> simp

/-- Claim C1: for every byte length `L` and configured limit `M` (KB), the
size check of `uploadFile` and of `uploadImage` fails with the
FileTooLarge error exactly when `L > M*1024`; otherwise the call proceeds
past the size check (so the size error is not produced). `uploadFile`
reaches its size check once the file is present with a non-empty path;
`uploadImage` performs it first for any present image. -/
theorem c1_size_check (env : Env) (f : FileInput) (img : ImageInput)
    (ffolder ifolder : JSString) (hpath : f.path ≠ []) :
    ((uploadFile env (some f) ffolder).2
        = .error (.fileTooBig env.maximumFileSize)
      ↔ f.size > env.maximumFileSize * 1024)
    ∧ ((uploadImage env (some img) ifolder).2
        = .error (.fileTooBig env.maximumFileSize)
      ↔ img.size > env.maximumFileSize * 1024) := by
  constructor
  · simp only [uploadFile]
    rw [if_neg hpath]
    by_cases hs : f.size > env.maximumFileSize * 1024
    · rw [if_pos hs]
      simpa using hs
    · rw [if_neg hs, iff_false_intro hs, iff_false]
      intro h
      split_ifs at h <;> simp at h
      exact uploadToS3_snd_not_fileTooBig env f.name ffolder
        (env.readFile f.path) env.maximumFileSize h
  · simp only [uploadImage]
    by_cases hs : img.size > env.maximumFileSize * 1024
    · rw [if_pos hs]
      simpa using hs
    · rw [if_neg hs, iff_false_intro hs, iff_false]
      intro h
      split_ifs at h <;> simp at h
      exact uploadToS3_snd_not_fileTooBig env img.name ifolder
        (env.readFile img.path) env.maximumFileSize h

/-- Witness for C1 at a concrete oversized file (limit 1 KB, 2000 bytes). -/
theorem c1_size_check_witness :
    (uploadFile sampleEnv (some ⟨2000, "a.png".toList, "a.png".toList⟩) []).2
      = .error (.fileTooBig 1) :=
  ((c1_size_check sampleEnv ⟨2000, "a.png".toList, "a.png".toList⟩
      ⟨0, [], [], [], []⟩ [] [] (by decide)).1).mpr (by decide)

/-- Claim C2: the extension check passes exactly when the allow-list is
empty, or the lower-cased extension is non-empty, not the bare dot, and a
member of the allow-list. -/
theorem c2_extension_check (p : JSString) (A : List JSString) :
    isExtensionAllowed p A = true
      ↔ (A = [] ∨ (lowerExtension p ≠ [] ∧ lowerExtension p ≠ ['.']
          ∧ lowerExtension p ∈ A)) := by
  simp only [isExtensionAllowed, Bool.not_eq_true', Bool.and_eq_false_iff,
    Bool.or_eq_false_iff, Bool.not_eq_false', decide_eq_false_iff_not,
    decide_eq_true_iff, not_not]
  tauto

/-- Replacement behaviour of one settings field: updated exactly by a
present non-empty incoming value, kept otherwise. -/
theorem field_update_spec (c : JSString) (inc : Option JSString) :
    (∀ v, inc = some v → v ≠ [] → applyField c inc = v)
    ∧ (inc = none ∨ inc = some [] → applyField c inc = c) := by
  constructor
  · intro v hv hne
    rw [hv, applyField, if_pos hne]
  · rintro (rfl | rfl)
    · rfl
    · rfl

theorem applyField_idem (c : JSString) (inc : Option JSString) :
    applyField (applyField c inc) inc = applyField c inc := by
  cases inc with
  | none => rfl
  | some v =>
    by_cases h : v = []
    · subst h; rfl
    · simp [applyField, h]

/-- Claim C5: `reloadSettings` is a no-op on updates tagged for another
plugin; otherwise each of the six fields is replaced exactly when the
incoming value is present and non-empty and keeps its prior value
otherwise; repeating the call with identical input changes nothing. -/
theorem c5_reload_settings :
    (∀ (cur : Settings) (d : HookData) (inc : IncomingSettings),
        d.plugin ≠ pluginTag → reloadSettings cur (some d) inc = cur)
    ∧ (∀ (cur : Settings) (data : Option HookData) (inc : IncomingSettings),
        data = none ∨ data = some ⟨pluginTag⟩ →
        ((∀ v, inc.accessKeyId = some v → v ≠ [] →
            (reloadSettings cur data inc).accessKeyId = v)
          ∧ (inc.accessKeyId = none ∨ inc.accessKeyId = some [] →
            (reloadSettings cur data inc).accessKeyId = cur.accessKeyId))
        ∧ ((∀ v, inc.secretAccessKey = some v → v ≠ [] →
            (reloadSettings cur data inc).secretAccessKey = v)
          ∧ (inc.secretAccessKey = none ∨ inc.secretAccessKey = some [] →
            (reloadSettings cur data inc).secretAccessKey = cur.secretAccessKey))
        ∧ ((∀ v, inc.region = some v → v ≠ [] →
            (reloadSettings cur data inc).region = v)
          ∧ (inc.region = none ∨ inc.region = some [] →
            (reloadSettings cur data inc).region = cur.region))
        ∧ ((∀ v, inc.bucket = some v → v ≠ [] →
            (reloadSettings cur data inc).bucket = v)
          ∧ (inc.bucket = none ∨ inc.bucket = some [] →
            (reloadSettings cur data inc).bucket = cur.bucket))
        ∧ ((∀ v, inc.uploadPath = some v → v ≠ [] →
            (reloadSettings cur data inc).uploadPath = v)
          ∧ (inc.uploadPath = none ∨ inc.uploadPath = some [] →
            (reloadSettings cur data inc).uploadPath = cur.uploadPath))
        ∧ ((∀ v, inc.host = some v → v ≠ [] →
            (reloadSettings cur data inc).host = v)
          ∧ (inc.host = none ∨ inc.host = some [] →
            (reloadSettings cur data inc).host = cur.host)))
    ∧ (∀ (cur : Settings) (data : Option HookData) (inc : IncomingSettings),
        reloadSettings (reloadSettings cur data inc) data inc
          = reloadSettings cur data inc) := by
  refine ⟨?_, ?_, ?_⟩
  · intro cur d inc h
    simp [reloadSettings, h]
  · intro cur data inc h
    rcases h with rfl | rfl
    · exact ⟨field_update_spec _ _, field_update_spec _ _, field_update_spec _ _,
        field_update_spec _ _, field_update_spec _ _, field_update_spec _ _⟩
    · have hred : reloadSettings cur (some ⟨pluginTag⟩) inc
          = { accessKeyId := applyField cur.accessKeyId inc.accessKeyId
              secretAccessKey := applyField cur.secretAccessKey inc.secretAccessKey
              region := applyField cur.region inc.region
              bucket := applyField cur.bucket inc.bucket
              uploadPath := applyField cur.uploadPath inc.uploadPath
              host := applyField cur.host inc.host } := by
        simp [reloadSettings]
      rw [hred]
      exact ⟨field_update_spec _ _, field_update_spec _ _, field_update_spec _ _,
        field_update_spec _ _, field_update_spec _ _, field_update_spec _ _⟩
  · intro cur data inc
    cases data with
    | none => simp [reloadSettings, applyField_idem]
    | some d =>
      by_cases h : d.plugin = pluginTag
      · simp [reloadSettings, h, applyField_idem]
      · simp [reloadSettings, h]

/-- Witness for C5: an update tagged for a different plugin leaves the
stored settings untouched. -/
theorem c5_reload_settings_witness :
    reloadSettings sampleSettings (some ⟨"other-plugin".toList⟩)
      ⟨some "X".toList, none, none, none, none, none⟩ = sampleSettings :=
  c5_reload_settings.1 sampleSettings ⟨"other-plugin".toList⟩
    ⟨some "X".toList, none, none, none, none, none⟩ (by decide)

/-- Claim C6: evaluation of `uploadFile` with a missing file and with a
file lacking a path, and of `uploadImage` with a missing image. The first
two fail with the intended invalid-input errors; the third logs the
message and then throws `ReferenceError: callback is not defined` (line
93 calls the unbound `callback` instead of throwing the constructed
Error). None of the three performs a file read, an HTTP request or a
storage-client invocation. -/
theorem c6_code_eval :
    uploadFile sampleEnv none [] = ([], .error .invalidFile)
    ∧ uploadFile sampleEnv (some ⟨10, [], "f".toList⟩) []
        = ([], .error .invalidFilePath)
    ∧ uploadImage sampleEnv none []
        = ([.logError "invalid image".toList],
           .error (.refError "callback".toList)) :=
  ⟨rfl, rfl, rfl⟩

/-- Claim C7: evaluation of the remote fetch helper. It rejects with
`ReferenceError: https is not defined` before issuing any GET request
("https" is never required by the module), so no status is ever observed
and no body is ever returned. -/
theorem c7_code_eval :
    downloadAndResizeImage sampleEnv "http://img.example/p.png".toList 200
      = ([], .error (.refError "https".toList))
    ∧ messageOf (.refError "https".toList) = "https is not defined".toList :=
  ⟨rfl, rfl⟩

/-- Counterexample to Claim C9 as stated: for a local image without
`originalname` (here with an empty allow-list), the call indeed fails, but
the extension check is never invoked on an undefined name - the trace is
empty, containing no extension-check step at all - because the strict-mode
assignment to the undeclared `name` on line 118 throws
`ReferenceError: name is not defined` first. -/
theorem c9_counterexample :
    uploadImage sampleEnv
        (some ⟨10, [], "/tmp/upload_1".toList, "x.png".toList, []⟩) []
      = ([], .error (.refError "name".toList))
    ∧ ¬ ∃ a, Effect.extCheck a ∈
        (uploadImage sampleEnv
          (some ⟨10, [], "/tmp/upload_1".toList, "x.png".toList, []⟩) []).1 := by
  refine ⟨rfl, ?_⟩
  rintro ⟨a, ha⟩
  have h0 : (uploadImage sampleEnv
      (some ⟨10, [], "/tmp/upload_1".toList, "x.png".toList, []⟩) []).1 = [] := rfl
  rw [h0] at ha
  exact List.not_mem_nil _ ha

/-- Claim C9 (amended): for every `uploadImage` call on a local file
(no url) whose image passes the size check, has a path but carries no
`originalname`, the call throws `ReferenceError: name is not defined` at
the undeclared assignment `name = image.path` (line 118, strict mode)
before the extension check runs, so it fails for every allow-list -
including the empty one - and never reaches the file read or the storage
step (the trace is empty). -/
theorem c9_amended (env : Env) (image : ImageInput) (folder : JSString)
    (hurl : image.url = []) (hpath : image.path ≠ [])
    (horig : image.originalname = [])
    (hsize : ¬ image.size > env.maximumFileSize * 1024) :
    uploadImage env (some image) folder
      = ([], .error (.refError "name".toList)) := by
  simp [uploadImage, hurl, hpath, horig, hsize]

/-- Witness for the amended C9 at a concrete image. -/
theorem c9_amended_witness :
    uploadImage sampleEnv
        (some ⟨20, [], "/tmp/u2".toList, "y.png".toList, []⟩) "avatars".toList
      = ([], .error (.refError "name".toList)) :=
  c9_amended sampleEnv ⟨20, [], "/tmp/u2".toList, "y.png".toList, []⟩
    "avatars".toList (by decide) (by decide) (by decide) (by decide)

/-- Claim C10: every `uploadImage` call on a remote URL that passes the
size and extension checks throws `ReferenceError: imageDimension is not
defined` (the argument evaluated on line 132 is unbound, as are `filename`
on line 134 and `https` inside the fetch helper): the trace holds only the
extension-check step - no HTTP request, no file read, no storage put - and
the result is an error, so no remote-URL upload ever stores an object or
returns a URL. -/
theorem c10_url_referror (env : Env) (image : ImageInput) (folder : JSString)
    (hurl : image.url ≠ [])
    (hsize : ¬ image.size > env.maximumFileSize * 1024)
    (hext : isExtensionAllowed image.url env.allowed = true) :
    uploadImage env (some image) folder
      = ([.extCheck image.url], .error (.refError "imageDimension".toList)) := by
  simp [uploadImage, hurl, hsize, hext]

/-- Witness for C10 at a concrete remote-URL image. -/
theorem c10_url_referror_witness :
    uploadImage sampleEnv (some ⟨10, "http://x/a.png".toList, [], [], []⟩) []
      = ([.extCheck "http://x/a.png".toList],
         .error (.refError "imageDimension".toList)) :=
  c10_url_referror sampleEnv ⟨10, "http://x/a.png".toList, [], [], []⟩ []
    (by decide) (by decide) (by decide)

theorem messageOf_fileTooBig_head (m : Nat) :
    (messageOf (.fileTooBig m)).head? = some '[' := by
  show (("[[error:file-too-big, ".toList ++ (Nat.repr m).toList)
      ++ "]]".toList).head? = some '['
  rw [head?_append_or, head?_append_or]
  rfl

theorem messageOf_invalidFileType_head (A : List JSString) :
    (messageOf (.invalidFileType A)).head? = some '[' := by
  show (("[[error:invalid-file-type, ".toList
      ++ List.intercalate "&#44; ".toList A) ++ "]]".toList).head? = some '['
  rw [head?_append_or, head?_append_or]
  rfl

theorem no_sep_fileTooBig (m : Nat) :
    ¬ pluginIdSep <+: messageOf (.fileTooBig m) :=
  not_prefix_of_head_ne (by decide)
    (by rw [messageOf_fileTooBig_head]; decide)

theorem no_sep_invalidFileType (A : List JSString) :
    ¬ pluginIdSep <+: messageOf (.invalidFileType A) :=
  not_prefix_of_head_ne (by decide)
    (by rw [messageOf_invalidFileType_head]; decide)

/-- The result `(uploadToS3 ...).2` errors exactly by wrapping a storage failure. -/
theorem uploadToS3_snd_error (env : Env) (fn folder buf : JSString)
    (e : JsError) (h : (uploadToS3 env fn folder buf).2 = .error e) :
    ∃ cause, env.s3SendFails = some cause
      ∧ e = .storageWrapped
          (if cause.isError then cause.name else "Error".toList)
          cause.message := by
  unfold uploadToS3 at h
  cases hc : env.s3SendFails with
  | some cause =>
    simp only [hc] at h
    simp at h
    exact ⟨cause, rfl, h.symm⟩
  | none =>
    simp only [hc] at h
    simp at h

/-- Counterexample to Claim C8 as stated: on a storage-put failure with
cause message "boom", the rethrown error's message is
"Error: nodebb-plugin-aws-s3-upload :: boom" - the string form of the
wrapped Error produced by `new Error(plugin.createError(err))` on line 209
- and is therefore NOT prefixed with the plugin identifier string. -/
theorem c8_counterexample :
    (uploadToS3
        { sampleEnv with s3SendFails := some ⟨true, "Error".toList, "boom".toList⟩ }
        "a.png".toList [] "b".toList).2
      = .error (.storageWrapped "Error".toList "boom".toList)
    ∧ messageOf (.storageWrapped "Error".toList "boom".toList)
      = "Error: nodebb-plugin-aws-s3-upload :: boom".toList
    ∧ ¬ pluginIdSep <+: messageOf (.storageWrapped "Error".toList "boom".toList) :=
  ⟨rfl, by decide, by decide⟩

/-- Claim C8 (amended): only a failure of the final storage put is wrapped
and logged: the message logged before rethrowing is the plugin identifier
plus the original message, and the rethrown error is a fresh Error whose
message is the string form of the wrapped error (its name, then ": ", then
the plugin-identifier-prefixed original message). Every other error kind
produced by `uploadFile` or `uploadImage` reaches the caller with its own
message, never carrying the plugin-identifier prefix; conversely a wrapped
storage error arises only from a storage-send failure and carries its
cause message. -/
theorem c8_amended :
    (∀ (env : Env) (fn folder buf : JSString) (cause : S3Cause),
        env.s3SendFails = some cause →
        uploadToS3 env fn folder buf
          = ([.s3Put env.settings.bucket
                (s3Key env.settings.uploadPath folder env.token fn) buf,
              .logError (pluginIdSep ++ cause.message)],
             .error (.storageWrapped
               (if cause.isError then cause.name else "Error".toList)
               cause.message)))
    ∧ (∀ (env : Env) (file : Option FileInput) (folder : JSString) (e : JsError),
        (uploadFile env file folder).2 = .error e →
        (∀ n m, e ≠ .storageWrapped n m) →
        ¬ pluginIdSep <+: messageOf e)
    ∧ (∀ (env : Env) (image : Option ImageInput) (folder : JSString) (e : JsError),
        (uploadImage env image folder).2 = .error e →
        (∀ n m, e ≠ .storageWrapped n m) →
        ¬ pluginIdSep <+: messageOf e)
    ∧ (∀ (env : Env) (file : Option FileInput) (folder : JSString) (n m : JSString),
        (uploadFile env file folder).2 = .error (.storageWrapped n m) →
        ∃ cause, env.s3SendFails = some cause ∧ m = cause.message)
    ∧ (∀ (env : Env) (image : Option ImageInput) (folder : JSString) (n m : JSString),
        (uploadImage env image folder).2 = .error (.storageWrapped n m) →
        ∃ cause, env.s3SendFails = some cause ∧ m = cause.message) := by
  refine ⟨?_, ?_, ?_, ?_, ?_⟩
  · intro env fn folder buf cause hc
    unfold uploadToS3
    rw [hc]
  · intro env file folder e h hns
    cases file with
    | none =>
      simp [uploadFile] at h
      subst h
      decide
    | some f =>
      simp only [uploadFile] at h
      split_ifs at h
      · simp at h; subst h; decide
      · simp at h; subst h; exact no_sep_fileTooBig _
      · simp at h; subst h; exact no_sep_invalidFileType _
      · simp at h
        obtain ⟨cause, hc, rfl⟩ := uploadToS3_snd_error _ _ _ _ _ h
        exact absurd rfl (hns _ _)
  · intro env image folder e h hns
    cases image with
    | none =>
      simp [uploadImage] at h
      subst h
      decide
    | some img =>
      simp only [uploadImage] at h
      split_ifs at h
      · simp at h; subst h; exact no_sep_fileTooBig _
      · simp at h; subst h; decide
      · simp at h; subst h; exact no_sep_invalidFileType _
      · simp at h
        obtain ⟨cause, hc, rfl⟩ := uploadToS3_snd_error _ _ _ _ _ h
        exact absurd rfl (hns _ _)
      · simp at h; subst h; decide
      · simp at h; subst h; exact no_sep_invalidFileType _
      · simp at h; subst h; decide
  · intro env file folder n m h
    cases file with
    | none => simp [uploadFile] at h
    | some f =>
      simp only [uploadFile] at h
      split_ifs at h <;> (try simp at h)
      obtain ⟨cause, hc, heq⟩ := uploadToS3_snd_error _ _ _ _ _ h
      injection heq with hn hm
      exact ⟨cause, hc, hm⟩
  · intro env image folder n m h
    cases image with
    | none => simp [uploadImage] at h
    | some img =>
      simp only [uploadImage] at h
      split_ifs at h <;> (try simp at h)
      obtain ⟨cause, hc, heq⟩ := uploadToS3_snd_error _ _ _ _ _ h
      injection heq with hn hm
      exact ⟨cause, hc, hm⟩

/-- Witness for the amended C8: a concrete storage failure is wrapped,
logged with the plugin-identifier prefix, and rethrown. -/
theorem c8_amended_witness :
    uploadToS3
        { sampleEnv with s3SendFails := some ⟨true, "NoSuchBucket".toList, "boom".toList⟩ }
        "a.png".toList [] "b".toList
      = ([.s3Put "bkt".toList "files/u1.png".toList "b".toList,
          .logError "nodebb-plugin-aws-s3-upload :: boom".toList],
         .error (.storageWrapped "NoSuchBucket".toList "boom".toList)) :=
  c8_amended.1
    { sampleEnv with s3SendFails := some ⟨true, "NoSuchBucket".toList, "boom".toList⟩ }
    "a.png".toList [] "b".toList ⟨true, "NoSuchBucket".toList, "boom".toList⟩ rfl

/-- Modelled from the spec wording for C4: an authority string "has a
scheme" when it contains the scheme separator "://" (the spec's examples
are "https://cdn.x", which has one, and "example.com", which does not). -/
def specHasScheme (s : JSString) : Prop := "://".toList <:+: s

instance (s : JSString) : Decidable (specHasScheme s) := by
  unfold specHasScheme
  infer_instance

/-- Counterexample to Claim C4 as stated: the override "httpx.example"
lacks a scheme, yet the code leaves it unchanged - the URL check on line
199 is `startsWith("http")`, not a scheme test - so the returned URL is
"httpx.example/<key>" rather than the claimed "http://httpx.example/<key>". -/
theorem c4_counterexample :
    ¬ specHasScheme "httpx.example".toList
    ∧ (uploadToS3
        { sampleEnv with settings := { sampleSettings with host := "httpx.example".toList } }
        "a.png".toList [] "b".toList).2
      = .ok ⟨"a.png".toList, "httpx.example/files/u1.png".toList⟩
    ∧ "httpx.example/files/u1.png".toList
        ≠ "http://".toList ++ "httpx.example/files/u1.png".toList := by
  refine ⟨by decide, rfl, by decide⟩

/-- Claim C4 (amended): the public URL of a successful upload is
`https://<bucket>/<key>` when no host override is configured; with an
override it is `<override>/<key>`, with "http://" prefixed exactly when
the override does not start with the four characters "http" (so overrides
carrying an http or https scheme pass through unchanged). -/
theorem c4_amended (env : Env) (filename folder buffer : JSString)
    (hok : env.s3SendFails = none) :
    (env.settings.host = [] →
        (uploadToS3 env filename folder buffer).2
          = .ok ⟨filename, "https://".toList ++ env.settings.bucket ++ ['/']
              ++ s3Key env.settings.uploadPath folder env.token filename⟩)
    ∧ (env.settings.host ≠ [] →
        "http".toList.isPrefixOf env.settings.host = true →
        (uploadToS3 env filename folder buffer).2
          = .ok ⟨filename, env.settings.host ++ ['/']
              ++ s3Key env.settings.uploadPath folder env.token filename⟩)
    ∧ (env.settings.host ≠ [] →
        "http".toList.isPrefixOf env.settings.host = false →
        (uploadToS3 env filename folder buffer).2
          = .ok ⟨filename, "http://".toList ++ env.settings.host ++ ['/']
              ++ s3Key env.settings.uploadPath folder env.token filename⟩) := by
  refine ⟨?_, ?_, ?_⟩
  · intro h0
    simp [uploadToS3, hok, h0]
  · intro h0 h1
    have h1' : ['h', 't', 't', 'p'] <+: env.settings.host := by simpa using h1
    simp [uploadToS3, hok, h0, h1']
  · intro h0 h1
    have h1' : ¬ ['h', 't', 't', 'p'] <+: env.settings.host := by
      intro hp
      rw [← List.isPrefixOf_iff_prefix] at hp
      have h1b : ['h', 't', 't', 'p'].isPrefixOf env.settings.host = false := h1
      rw [h1b] at hp
      cases hp
    simp [uploadToS3, hok, h0, h1']

/-- Witness for the amended C4: a scheme-less override is prefixed with
"http://". -/
theorem c4_amended_witness :
    (uploadToS3
        { sampleEnv with settings := { sampleSettings with host := "cdn.example".toList } }
        "a.png".toList [] "b".toList).2
      = .ok ⟨"a.png".toList, "http://cdn.example/files/u1.png".toList⟩ :=
  (c4_amended
      { sampleEnv with settings := { sampleSettings with host := "cdn.example".toList } }
      "a.png".toList [] "b".toList rfl).2.2 (by decide) (by decide)

/-! ## Claim C3: key invariants -/

/-- No two adjacent characters of the string are both '/'. -/
def NoDoubleSlash (l : JSString) : Prop :=
  List.Chain' (fun a b => ¬(a = '/' ∧ b = '/')) l

/-- Executable check for `NoDoubleSlash`. -/
def noDoubleSlashB : JSString → Bool
  | [] => true
  | [_] => true
  | a :: b :: t =>
      !(decide (a = '/') && decide (b = '/')) && noDoubleSlashB (b :: t)

theorem noDoubleSlashB_iff (l : JSString) :
    noDoubleSlashB l = true ↔ NoDoubleSlash l := by
  induction l with
  | nil => simp [noDoubleSlashB, NoDoubleSlash]
  | cons a t ih =>
    cases t with
    | nil => simp [noDoubleSlashB, NoDoubleSlash]
    | cons b t2 =>
      rw [NoDoubleSlash, List.chain'_cons, noDoubleSlashB,
        Bool.and_eq_true, ih]
      rw [NoDoubleSlash]
      simp
      tauto

instance (l : JSString) : Decidable (NoDoubleSlash l) :=
  decidable_of_iff (noDoubleSlashB l = true) (noDoubleSlashB_iff l)

theorem extname_eq_nil_or_drop (s : JSString) :
    extname s = [] ∨ ∃ d, extname s = (basename s).drop d := by
  unfold extname
  split_ifs with hb
  · exact Or.inl rfl
  · cases h : lastDotIndex (basename s) with
    | none => simp [h]
    | some d =>
      by_cases hd : d = 0
      · simp [h, hd]
      · simp only [h, if_neg hd]
        exact Or.inr ⟨d, rfl⟩

theorem basename_no_slash (s : JSString) : '/' ∉ basename s := by
  intro h
  rw [basename, List.mem_reverse] at h
  have := List.mem_takeWhile_imp h
  simp at this

theorem extname_no_slash (s : JSString) : '/' ∉ extname s := by
  intro h
  rcases extname_eq_nil_or_drop s with he | ⟨d, he⟩
  · rw [he] at h
    exact List.not_mem_nil _ h
  · rw [he] at h
    exact basename_no_slash s (List.drop_subset _ _ h)

theorem chain'_of_no_slash {l : JSString} (h : '/' ∉ l) : NoDoubleSlash l := by
  induction l with
  | nil => exact List.chain'_nil
  | cons a t ih =>
    rw [NoDoubleSlash, List.chain'_cons']
    constructor
    · intro y hy hc
      apply h
      rw [← hc.1]
      exact List.mem_cons_self a t
    · exact ih (fun hm => h (List.mem_cons_of_mem a hm))

theorem strippedPathOf_head (up : JSString) (h1 : up.take 2 ≠ ['/', '/']) :
    (strippedPathOf up).head? ≠ some '/' := by
  cases up with
  | nil => decide
  | cons c t =>
    by_cases hc : c = '/'
    · subst hc
      cases t with
      | nil => decide
      | cons c2 t2 =>
        have hc2 : c2 ≠ '/' := by
          intro h
          subst h
          exact h1 rfl
        unfold strippedPathOf s3PathOf
        split_ifs <;> simp_all [List.cons_append]
    · unfold strippedPathOf s3PathOf
      split_ifs <;> simp_all [List.cons_append]

theorem head?_or3_ne_slash (o1 o2 o3 : Option Char)
    (g1 : o1 ≠ some '/') (g2 : o2 ≠ some '/') (g3 : o3 ≠ some '/') :
    (o1.or o2).or o3 ≠ some '/' := by
  cases o1 with
  | some a => simpa [Option.or] using g1
  | none =>
    cases o2 with
    | some b => simpa [Option.or] using g2
    | none => simpa [Option.or] using g3

theorem head?_or3_mid_ne_slash (o1 : Option Char) (c : Char) (o3 : Option Char)
    (g1 : o1 ≠ some '/') (g2 : c ≠ '/') :
    (o1.or (some c)).or o3 ≠ some '/' := by
  cases o1 with
  | some a => simpa [Option.or] using g1
  | none => simpa [Option.or] using g2

theorem s3KeyPath_head (up folder : JSString) (h1 : up.take 2 ≠ ['/', '/'])
    (h2 : '/' ∉ folder) :
    (s3KeyPath up folder).head? ≠ some '/' := by
  unfold s3KeyPath
  split_ifs with hf
  · cases folder with
    | nil => exact absurd rfl hf
    | cons c t =>
      rw [head?_append_or, head?_append_or]
      exact head?_or3_mid_ne_slash _ c _ (strippedPathOf_head up h1)
        (fun h => h2 (h ▸ List.mem_cons_self c t))
  · exact strippedPathOf_head up h1

theorem s3Key_head (up folder token fn : JSString)
    (h1 : up.take 2 ≠ ['/', '/']) (h2 : '/' ∉ folder) (h3 : '/' ∉ token) :
    (s3Key up folder token fn).head? ≠ some '/' := by
  unfold s3Key
  rw [head?_append_or, head?_append_or]
  apply head?_or3_ne_slash
  · exact s3KeyPath_head up folder h1 h2
  · intro hh
    exact h3 (head?_mem hh)
  · intro hh
    exact extname_no_slash fn (head?_mem hh)

theorem s3Key_noDoubleSlash (up folder token fn : JSString)
    (hl : up.getLast? = some '/') (hnds : NoDoubleSlash up)
    (h2 : '/' ∉ folder) (h3 : '/' ∉ token) :
    NoDoubleSlash (s3Key up folder token fn) := by
  have hup_ne : up ≠ [] := by
    intro h
    rw [h] at hl
    cases hl
  have hp : s3PathOf up = up := by
    unfold s3PathOf
    rw [if_pos hup_ne, if_pos hl]
  have hstr_nds : NoDoubleSlash (strippedPathOf up) := by
    show NoDoubleSlash (if (s3PathOf up).head? = some '/' then (s3PathOf up).tail
      else s3PathOf up)
    rw [hp]
    split_ifs with h
    · exact List.Chain'.tail hnds
    · exact hnds
  have hA : NoDoubleSlash (s3KeyPath up folder) := by
    unfold s3KeyPath
    split_ifs with hf
    · unfold NoDoubleSlash
      rw [List.chain'_append, List.chain'_append]
      refine ⟨⟨hstr_nds, chain'_of_no_slash h2, ?_⟩, List.chain'_singleton '/', ?_⟩
      · intro x hx y hy hc
        rw [Option.mem_def] at hy
        exact h2 (hc.2 ▸ head?_mem hy)
      · intro x hx y hy hc
        rw [Option.mem_def, List.getLast?_append_of_ne_nil _ hf] at hx
        exact h2 (hc.1 ▸ getLast?_mem hx)
    · exact hstr_nds
  unfold s3Key NoDoubleSlash
  rw [List.chain'_append, List.chain'_append]
  refine ⟨⟨hA, chain'_of_no_slash h3, ?_⟩, chain'_of_no_slash (extname_no_slash fn), ?_⟩
  · intro x hx y hy hc
    rw [Option.mem_def] at hy
    exact h3 (hc.2 ▸ head?_mem hy)
  · intro x hx y hy hc
    rw [Option.mem_def] at hy
    exact extname_no_slash fn (hc.2 ▸ head?_mem hy)

/-- Counterexample to Claim C3 as stated: with `uploadPath = "//"` the
code strips only one leading '/' (line 177 uses the regex `^\/`), so the
derived key "/u1.png" DOES start with a leading slash. -/
theorem c3_counterexample :
    (s3Key "//".toList [] "u1".toList "a.png".toList).head? = some '/' := by
  decide

/-- Claim C3 (amended): provided the configured uploadPath does not start
with a double slash and neither the folder nor the generated token
contains a '/', the storage key never starts with a leading slash and
always ends with the extension of the source filename (possibly empty);
and when the uploadPath prefix already ends in '/' and itself contains no
double slash, the key contains no double slash anywhere. -/
theorem c3_amended (uploadPath folder token filename : JSString)
    (h1 : uploadPath.take 2 ≠ ['/', '/'])
    (h2 : '/' ∉ folder) (h3 : '/' ∉ token) :
    (s3Key uploadPath folder token filename).head? ≠ some '/'
    ∧ extname filename <:+ s3Key uploadPath folder token filename
    ∧ (uploadPath.getLast? = some '/' → NoDoubleSlash uploadPath →
        NoDoubleSlash (s3Key uploadPath folder token filename)) :=
  ⟨s3Key_head uploadPath folder token filename h1 h2 h3,
    List.suffix_append _ _,
    fun hl hnds => s3Key_noDoubleSlash uploadPath folder token filename hl hnds h2 h3⟩

/-- Witness for the amended C3 at a concrete prefix ending in '/'. -/
theorem c3_amended_witness :
    (s3Key "dir/".toList "f".toList "u1".toList "a.png".toList).head? ≠ some '/'
    ∧ extname "a.png".toList <:+ s3Key "dir/".toList "f".toList "u1".toList "a.png".toList
    ∧ NoDoubleSlash (s3Key "dir/".toList "f".toList "u1".toList "a.png".toList) := by
  have h := c3_amended "dir/".toList "f".toList "u1".toList "a.png".toList
    (by decide) (by decide) (by decide)
  exact ⟨h.1, h.2.1, h.2.2 (by decide) (by decide)⟩
